import Mathlib

/-!
# Verification of the oxidized-alpha packet protocol layer

A shallow embedding of `src/main.rs` and `src/lib.rs` of the
`theoparis/oxidized-alpha` TCP game server.

Modelling conventions:
* Bytes are `Nat`s; every primitive read/write applies `% 256` exactly where the
  Rust types force a value into `u8`.
* The duplex socket is split into `input` (bytes not yet read) and `output`
  (bytes written so far).  A short read (`read_exact` hitting end of stream)
  is the only read failure, mirroring `PacketSerializer::next_u8`.
* `f64`/`f32` values are carried as their IEEE-754 big-endian bit patterns
  (`Nat`); the handler only moves these bytes, never computes with them.  The
  one numeric use, Rust's `as i32` cast in the spawn-position packet, is
  implemented on bit patterns by `f64BitsAsI32`.
* The two external collaborators, `miniz_oxide::compress_to_vec_zlib(_, 6)`
  and lossy UTF-8 string decoding, are taken as parameters in `Ext`.
* Fallible Rust code (`Result` + `?`) becomes the `M` monad below; a `panic`
  (`Option::unwrap` on `None`) is a distinct outcome `MResult.panicked`.
* The session additionally records a `trace` of completed socket operations
  and, in `threadTrace`, the mutex acquire/release performed by `main`, to
  state the locking discipline.
* `main.rs` constructs `Player` with pose fields (`x`, `y`, `z`, `yaw`,
  `pitch`, `stance`, `on_ground`); the `Player` here is the record
  `handle_client` manipulates.
-/

namespace OxidizedAlpha

/-! ## Packet id constants (`lib.rs`, module `packets`) -/

def KEEP_ALIVE : Nat := 0x00
def LOGIN : Nat := 0x01
def HANDSHAKE : Nat := 0x02
def CHAT_MESSAGE : Nat := 0x03
def TIME_UPDATE : Nat := 0x04
def PLAYER_INVENTORY : Nat := 0x05
def SPAWN_POSITION : Nat := 0x06
def USE_ENTITY : Nat := 0x07
def UPDATE_HEALTH : Nat := 0x08
def RESPAWN : Nat := 0x09
def PLAYER : Nat := 0x0A
def PLAYER_POSITION : Nat := 0x0B
def PLAYER_LOOK : Nat := 0x0C
def PLAYER_POSITION_AND_LOOK : Nat := 0x0D
def PRE_CHUNK : Nat := 0x32
def MAP_CHUNK : Nat := 0x33
def KICK_OR_DISCONNECT : Nat := 0xFF

/-! ## Data model -/

/-- `Player` as constructed and mutated by `handle_client` in `main.rs`.
Pose fields hold IEEE-754 bit patterns (f64 for `x`, `y`, `z`, `stance`;
f32 for `yaw`, `pitch`). -/
structure Player where
  username : String
  logged_in : Bool
  x : Nat
  y : Nat
  z : Nat
  yaw : Nat
  pitch : Nat
  stance : Nat
  on_ground : Bool
deriving DecidableEq

/-- `Chunk` from `lib.rs`; the byte vectors are lists of bytes. -/
structure Chunk where
  x : Int
  z : Int
  blocks : List Nat
  data : List Nat
  sky_light : List Nat
  block_light : List Nat
  height_map : List Nat
deriving DecidableEq

/-- The error enum of `main.rs` (message payloads dropped). -/
inductive Err where
  | BitsError
  | WriteHandshakePacket
  | WriteKeepAlivePacket
  | ReadOnGroundPacket
  | ListenFailed
  | InvalidProtocolVersion
deriving DecidableEq

/-- Events recorded for the concurrency discipline: completed socket
operations, and the registry mutex acquire/release done in `main`. -/
inductive Evt where
  | lockAcquire
  | lockRelease
  | sockRead
  | sockWrite
deriving DecidableEq

/-- The state a session thread manipulates: its bound username
(`let mut username` in `handle_client`), the shared player registry, the
`ENTITY_COUNTER` cell (an `AtomicI32`, stored as its `Nat` bit pattern
`< 2^32`), the socket's two directions, and the event trace. -/
structure SessionState where
  username : Option String
  players : List Player
  counter : Nat
  input : List Nat
  output : List Nat
  trace : List Evt
deriving DecidableEq

/-- Outcome of a fallible, possibly panicking computation. -/
inductive MResult (α : Type) where
  | ok (a : α) (s : SessionState)
  | err (e : Err) (s : SessionState)
  | panicked (s : SessionState)
deriving DecidableEq

/-- The session monad: Rust `Result` with `?`, plus panics, over
`SessionState`. -/
def M (α : Type) : Type := SessionState → MResult α

def mPure {α : Type} (a : α) : M α := fun s => .ok a s

def mBind {α β : Type} (x : M α) (f : α → M β) : M β := fun s =>
  match x s with
  | .ok a s1 => f a s1
  | .err e s1 => .err e s1
  | .panicked s1 => .panicked s1

instance instMonadM : Monad M where
  pure := mPure
  bind := mBind

def throwM (e : Err) : M PUnit := fun s => .err e s

def panicM : M PUnit := fun s => .panicked s

def getS : M SessionState := fun s => .ok s s

def modifyS (f : SessionState → SessionState) : M PUnit := fun s => .ok ⟨⟩ (f s)

/-! ## Channel primitives (`PacketSerializer` in `main.rs`) -/

/-- `next_u8`: blocking one-byte read; fails with a bits error at end of
stream. A completed read appends a `sockRead` event. -/
def readU8M : M Nat := fun s =>
  match s.input with
  | [] => .err .BitsError s
  | b :: rest => .ok (b % 256) { s with input := rest, trace := s.trace ++ [Evt.sockRead] }

/-- `n` successive `next_u8` reads, first byte first. -/
def readBytesM : Nat → M (List Nat)
  | 0 => pure []
  | n + 1 => do
    let b ← readU8M
    let bs ← readBytesM n
    pure (b :: bs)

/-- Big-endian value of a byte list. -/
def beVal (bs : List Nat) : Nat := bs.foldl (fun acc b => acc * 256 + b) 0

def readBeU16M : M Nat := do pure (beVal (← readBytesM 2))

def readBeU32M : M Nat := do pure (beVal (← readBytesM 4))

def readBeU64M : M Nat := do pure (beVal (← readBytesM 8))

/-- `read_f64`: eight bytes, kept as the IEEE-754 bit pattern. -/
def readF64M : M Nat := do pure (beVal (← readBytesM 8))

/-- `read_f32`: four bytes, kept as the IEEE-754 bit pattern. -/
def readF32M : M Nat := do pure (beVal (← readBytesM 4))

/-- `write_u8`: write one byte and flush.  A completed write appends a
`sockWrite` event. -/
def writeU8M (v : Nat) : M PUnit := fun s =>
  .ok ⟨⟩ { s with output := s.output ++ [v % 256], trace := s.trace ++ [Evt.sockWrite] }

def writeBytesM : List Nat → M PUnit
  | [] => pure ⟨⟩
  | b :: bs => do
    writeU8M b
    writeBytesM bs

/-- The `w` big-endian bytes of `v % 256^w`, most significant first. -/
def beBytesOfNat : Nat → Nat → List Nat
  | 0, _ => []
  | w + 1, v => (v / 256 ^ w) % 256 :: beBytesOfNat w v

def writeBeU16M (v : Nat) : M PUnit := writeBytesM (beBytesOfNat 2 v)

def writeBeU64M (v : Nat) : M PUnit := writeBytesM (beBytesOfNat 8 v)

/-- Big-endian two's-complement bytes of an `i32`. -/
def i32Bytes (v : Int) : List Nat := beBytesOfNat 4 (v % 2 ^ 32).toNat

/-- Big-endian two's-complement bytes of an `i16`. -/
def i16Bytes (v : Int) : List Nat := beBytesOfNat 2 (v % 2 ^ 16).toNat

def writeBeI32M (v : Int) : M PUnit := writeBytesM (i32Bytes v)

def writeBeI16M (v : Int) : M PUnit := writeBytesM (i16Bytes v)

def writeF64M (bits : Nat) : M PUnit := writeBytesM (beBytesOfNat 8 bits)

def writeF32M (bits : Nat) : M PUnit := writeBytesM (beBytesOfNat 4 bits)

/-- External collaborators of the protocol layer: the zlib compressor at
level 6 (`compress_to_vec_zlib(_, 6)`) and lossy UTF-8 decoding
(`read_str_sized_lossy`). -/
structure Ext where
  compress : List Nat → List Nat
  decodeLossy : List Nat → String

/-- `read_string`: u16 byte-length then that many bytes, lossily decoded. -/
def readStringM (ext : Ext) : M String := do
  let length ← readBeU16M
  let bs ← readBytesM length
  pure (ext.decodeLossy bs)

/-! ## Entity id allocation (`ENTITY_COUNTER` in `main.rs`) -/

/-- Signed reading of an `i32` bit pattern. -/
def toSignedI32 (c : Nat) : Int :=
  if c % 2 ^ 32 < 2 ^ 31 then ((c % 2 ^ 32 : Nat) : Int)
  else ((c % 2 ^ 32 : Nat) : Int) - 2 ^ 32

/-- `AtomicI32::fetch_add(1, _)`: returns the previous value, stores the
incremented one (wrapping, as the atomic does). -/
def fetchAdd (c : Nat) : Int × Nat := (toSignedI32 c, (c + 1) % 2 ^ 32)

def fetchAddM : M Int := fun s =>
  .ok (fetchAdd s.counter).1 { s with counter := (fetchAdd s.counter).2 }

/-! ## Registry scan and mutation -/

/-- Index of the first element satisfying `q`
(`players.iter_mut().find(...)`). -/
def findIdx1 (q : Player → Bool) : List Player → Option Nat
  | [] => none
  | p :: ps => if q p then some 0 else (findIdx1 q ps).map (fun i => i + 1)

/-- The linear scan `players.iter_mut().find(|player| player.username ==
username.clone().unwrap())`.  `find` evaluates its predicate only when the
list is nonempty; the predicate unwraps the session username, so with an
unset username and a nonempty registry the scan panics (`none`).  Otherwise
`some` of the found index, if any. -/
def scanPlayers : Option String → List Player → Option (Option Nat)
  | _, [] => some none
  | none, _ :: _ => none
  | some u, p :: ps => some (findIdx1 (fun q => q.username == u) (p :: ps))

/-- Replace the `i`-th element by `f` of it (in-place mutation through the
`find` reference). -/
def modifyNth (f : Player → Player) : Nat → List Player → List Player
  | _, [] => []
  | 0, p :: ps => f p :: ps
  | n + 1, p :: ps => p :: modifyNth f n ps

/-- Mutate the registry entry at index `i`. -/
def setF (i : Nat) (f : Player → Player) : M PUnit :=
  modifyS (fun s => { s with players := modifyNth f i s.players })

/-! ## Floating point constants and the `as i32` cast -/

/-- IEEE-754 bit pattern of `0.0f64`. -/
def F64_BITS_0 : Nat := 0x0000000000000000

/-- IEEE-754 bit pattern of `80.0f64`. -/
def F64_BITS_80 : Nat := 0x4054000000000000

/-- IEEE-754 bit pattern of `81.6f64`. -/
def F64_BITS_81_6 : Nat := 0x4054666666666666

/-- IEEE-754 bit pattern of `0.0f32`. -/
def F32_BITS_0 : Nat := 0x00000000

/-- Rust's `f64 as i32` on a bit pattern: truncate toward zero, saturate at
the `i32` bounds, `NaN` to `0`. -/
def f64BitsAsI32 (b : Nat) : Int :=
  let sign := b / 2 ^ 63 % 2
  let expo := b / 2 ^ 52 % 2 ^ 11
  let frac := b % 2 ^ 52
  if expo = 2047 ∧ frac ≠ 0 then 0
  else
    let mag : Nat :=
      if 1075 ≤ expo then (2 ^ 52 + frac) * 2 ^ (expo - 1075)
      else (2 ^ 52 + frac) / 2 ^ (1075 - expo)
    let v : Int := if sign = 1 then -(mag : Int) else (mag : Int)
    max (-(2 ^ 31) : Int) (min ((2 ^ 31 : Int) - 1) v)

/-! ## The LOGIN constants -/

/-- The `Player` literal built on a successful login. -/
def freshPlayer (uname : String) : Player :=
  { username := uname
    logged_in := false
    x := F64_BITS_0
    y := F64_BITS_80
    z := F64_BITS_0
    yaw := F32_BITS_0
    pitch := F32_BITS_0
    stance := F64_BITS_81_6
    on_ground := true }

def CHUNK_VOLUME : Nat := 16 * 128 * 16

/-- The synthetic chunk built in the LOGIN arm: `x = 1`, `z = 1`, and a
16×16×128 push loop appending `0` to `blocks` and `data` and `15` to
`block_light` and `sky_light` each iteration, so each vector is `32768`
copies of its constant. -/
def initialChunk : Chunk :=
  { x := 1
    z := 1
    blocks := List.replicate CHUNK_VOLUME 0
    data := List.replicate CHUNK_VOLUME 0
    sky_light := List.replicate CHUNK_VOLUME 15
    block_light := List.replicate CHUNK_VOLUME 15
    height_map := [] }

/-! ## `PacketSerializer::write_chunk` -/

def writeChunkM (ext : Ext) (chunk : Chunk) : M PUnit := do
  writeU8M PRE_CHUNK
  writeBeI32M chunk.x
  writeBeI32M chunk.z
  writeU8M 0x01
  let x := chunk.x * 16
  let y : Int := 0
  let z := chunk.z * 16
  let toCompress := chunk.blocks ++ chunk.data ++ chunk.block_light ++ chunk.sky_light
  let compressed := ext.compress toCompress
  writeU8M MAP_CHUNK
  writeBeI32M x
  writeBeI16M y
  writeBeI32M z
  writeU8M 15
  writeU8M 127
  writeU8M 15
  writeBeI32M (Int.ofNat compressed.length)
  writeBytesM compressed

/-! ## The dispatch arms of `handle_client` -/

/-- Body of the `PLAYER_POSITION_AND_LOOK` arm once the scan found index
`i`: read and assign each field in turn. -/
def updatePositionAndLook (i : Nat) : M PUnit := do
  let x ← readF64M
  setF i (fun p => { p with x := x })
  let stance ← readF64M
  setF i (fun p => { p with stance := stance })
  let y ← readF64M
  setF i (fun p => { p with y := y })
  let z ← readF64M
  setF i (fun p => { p with z := z })
  let yaw ← readF32M
  setF i (fun p => { p with yaw := yaw })
  let pitch ← readF32M
  setF i (fun p => { p with pitch := pitch })
  let g ← readU8M
  setF i (fun p => { p with on_ground := g == 1 })

/-- Body of the `PLAYER_POSITION` arm once the scan found index `i`
(source order: `x`, `y`, `stance`, `z`, ground flag). -/
def updatePosition (i : Nat) : M PUnit := do
  let x ← readF64M
  setF i (fun p => { p with x := x })
  let y ← readF64M
  setF i (fun p => { p with y := y })
  let stance ← readF64M
  setF i (fun p => { p with stance := stance })
  let z ← readF64M
  setF i (fun p => { p with z := z })
  let g ← readU8M
  setF i (fun p => { p with on_ground := g == 1 })

/-- Body of the `PLAYER_LOOK` arm once the scan found index `i`. -/
def updateLook (i : Nat) : M PUnit := do
  let yaw ← readF32M
  setF i (fun p => { p with yaw := yaw })
  let pitch ← readF32M
  setF i (fun p => { p with pitch := pitch })
  let g ← readU8M
  setF i (fun p => { p with on_ground := g == 1 })

/-- The LOGIN arm after the packet id was read. -/
def loginArm (ext : Ext) : M PUnit := do
  let protocolVersion ← readBeU32M
  if protocolVersion ≠ 3 then throwM Err.InvalidProtocolVersion
  else do
    let uname ← readStringM ext
    modifyS (fun s => { s with username := some uname })
    let _password ← readStringM ext
    let mapSeed ← readBeU64M
    let dimension ← readU8M
    let entityId ← fetchAddM
    writeU8M LOGIN
    writeBeI32M entityId
    writeBeU16M 0
    writeBeU16M 0
    writeBeU64M mapSeed
    writeU8M dimension
    let player := freshPlayer uname
    modifyS (fun s => { s with players := s.players ++ [player] })
    writeChunkM ext initialChunk
    writeU8M SPAWN_POSITION
    writeBeI32M (f64BitsAsI32 player.x)
    writeBeI32M (f64BitsAsI32 player.y)
    writeBeI32M (f64BitsAsI32 player.z)
    writeU8M PLAYER_POSITION_AND_LOOK
    writeF64M player.x
    writeF64M player.stance
    writeF64M player.y
    writeF64M player.z
    writeF32M player.yaw
    writeF32M player.pitch
    writeU8M (if player.on_ground then 1 else 0)
    modifyS (fun s =>
      { s with players :=
          (modifyNth (fun p => { p with logged_in := true })
            (s.players.length - 1) s.players) })

/-- One `match packet_id` dispatch of `handle_client`, after the leading id
byte was read.  Arms appear in source order. -/
def handlePacket (ext : Ext) (packetId : Nat) : M PUnit :=
  if packetId = KEEP_ALIVE then
    writeU8M 0
  else if packetId = LOGIN then
    loginArm ext
  else if packetId = PLAYER_POSITION_AND_LOOK then do
    let s ← getS
    match scanPlayers s.username s.players with
    | none => panicM
    | some none => pure PUnit.unit
    | some (some i) => updatePositionAndLook i
  else if packetId = PLAYER_POSITION then do
    let s ← getS
    match scanPlayers s.username s.players with
    | none => panicM
    | some none => pure PUnit.unit
    | some (some i) => updatePosition i
  else if packetId = PLAYER_LOOK then do
    let s ← getS
    match scanPlayers s.username s.players with
    | none => panicM
    | some none => pure PUnit.unit
    | some (some i) => updateLook i
  else if packetId = HANDSHAKE then do
    let _username ← readStringM ext
    writeBytesM [2, 0, 1, 45]
  else if packetId = CHAT_MESSAGE then do
    let _message ← readStringM ext
    pure PUnit.unit
  else if packetId = PLAYER then do
    let g ← readU8M
    let s ← getS
    match scanPlayers s.username s.players with
    | none => panicM
    | some none => pure PUnit.unit
    | some (some i) => setF i (fun p => { p with on_ground := g == 1 })
  else
    pure PUnit.unit

/-- The packet ids `handle_client` has arms for. -/
def handledPacketIds : List Nat :=
  [KEEP_ALIVE, LOGIN, HANDSHAKE, CHAT_MESSAGE, PLAYER, PLAYER_POSITION,
   PLAYER_LOOK, PLAYER_POSITION_AND_LOOK]

/-- Result of running the dispatch loop for some number of iterations. -/
inductive LoopRes where
  | errRes (e : Err) (s : SessionState)
  | panicRes (s : SessionState)
  | fuelOut (s : SessionState)
deriving DecidableEq

/-- The `loop` of `handle_client`, run for `fuel` iterations.  Each
iteration mirrors `if let Ok(packet_id) = stream.read_u8() { match ... }`:
a FAILED id read is swallowed and the loop just continues; an error or
panic inside an arm ends the loop. -/
def handleClient (ext : Ext) : Nat → SessionState → LoopRes
  | 0, s => .fuelOut s
  | n + 1, s =>
    match readU8M s with
    | .err _ s1 => handleClient ext n s1
    | .panicked s1 => .panicRes s1
    | .ok packetId s1 =>
      match handlePacket ext packetId s1 with
      | .ok _ s2 => handleClient ext n s2
      | .err e s2 => .errRes e s2
      | .panicked s2 => .panicRes s2

/-- The session thread spawned per connection in `main`:
`handle_client(&mut serializer, &mut players.lock().unwrap()).unwrap()`.
The registry `MutexGuard` is created before `handle_client` runs and is
dropped only when the call returns or unwinds; while the loop is still
running (fuel exhausted) the lock is still held. -/
def threadTrace (ext : Ext) (fuel : Nat) (s0 : SessionState) : List Evt :=
  match handleClient ext fuel { s0 with trace := [] } with
  | .errRes _ s => [Evt.lockAcquire] ++ s.trace ++ [Evt.lockRelease]
  | .panicRes s => [Evt.lockAcquire] ++ s.trace ++ [Evt.lockRelease]
  | .fuelOut s => [Evt.lockAcquire] ++ s.trace

/-- Whether some completed socket read happens while the registry lock is
held, given the initial lock state. -/
def readsWhileLocked : List Evt → Bool → Bool
  | [], _ => false
  | Evt.lockAcquire :: tr, _ => readsWhileLocked tr true
  | Evt.lockRelease :: tr, _ => readsWhileLocked tr false
  | Evt.sockRead :: tr, locked => locked || readsWhileLocked tr locked
  | Evt.sockWrite :: tr, locked => readsWhileLocked tr locked

/-! ## Iterated entity id allocation -/

/-- The `ENTITY_COUNTER` cell after `n` allocations; it starts at `1`. -/
def counterIter : Nat → Nat
  | 0 => 1
  | n + 1 => (fetchAdd (counterIter n)).2

/-- The entity id handed to the `k`-th (1-indexed) successful login of a
process. -/
def entityIdOfLogin (k : Nat) : Int := (fetchAdd (counterIter (k - 1))).1

/-! ## Wire byte sequences named for the statements -/

/-- The LOGIN response header: id `0x01`, entity id, two empty strings,
seed, dimension. -/
def loginResponseBytes (c seed dim : Nat) : List Nat :=
  [LOGIN] ++ i32Bytes (toSignedI32 c) ++ beBytesOfNat 2 0 ++ beBytesOfNat 2 0
    ++ beBytesOfNat 8 seed ++ [dim]

/-- The two chunk packets for `c` as emitted by `write_chunk`. -/
def chunkWire (ext : Ext) (c : Chunk) : List Nat :=
  [PRE_CHUNK] ++ i32Bytes c.x ++ i32Bytes c.z ++ [1]
    ++ [MAP_CHUNK] ++ i32Bytes (c.x * 16) ++ i16Bytes 0 ++ i32Bytes (c.z * 16)
    ++ [15, 127, 15]
    ++ i32Bytes (Int.ofNat (ext.compress (c.blocks ++ c.data ++ c.block_light ++ c.sky_light)).length)
    ++ ext.compress (c.blocks ++ c.data ++ c.block_light ++ c.sky_light)

/-- The spawn-position packet of the login path: each coordinate of the
fresh player is cast `as i32` from its double. -/
def spawnPosBytes : List Nat :=
  [SPAWN_POSITION] ++ i32Bytes (f64BitsAsI32 F64_BITS_0)
    ++ i32Bytes (f64BitsAsI32 F64_BITS_80) ++ i32Bytes (f64BitsAsI32 F64_BITS_0)

/-- The position-and-look packet of the login path. -/
def posLookBytes : List Nat :=
  [PLAYER_POSITION_AND_LOOK] ++ beBytesOfNat 8 F64_BITS_0
    ++ beBytesOfNat 8 F64_BITS_81_6 ++ beBytesOfNat 8 F64_BITS_80
    ++ beBytesOfNat 8 F64_BITS_0 ++ beBytesOfNat 4 F32_BITS_0
    ++ beBytesOfNat 4 F32_BITS_0 ++ [1]

/-- The full serialized LOGIN request with protocol version `v`. -/
def loginRequestBytes (v : Nat) (ub pb : List Nat) (seed dim : Nat) : List Nat :=
  beBytesOfNat 4 v ++ beBytesOfNat 2 ub.length ++ ub
    ++ beBytesOfNat 2 pb.length ++ pb ++ beBytesOfNat 8 seed ++ [dim]

/-- Socket events of a successful login with username/password byte lengths
`u`, `p` and compressed-chunk length `L`: all reads precede all writes. -/
def loginTraceEvts (u p L : Nat) : List Evt :=
  List.replicate 4 Evt.sockRead
    ++ List.replicate (2 + u) Evt.sockRead
    ++ List.replicate (2 + p) Evt.sockRead
    ++ List.replicate 8 Evt.sockRead
    ++ [Evt.sockRead]
    ++ [Evt.sockWrite]
    ++ List.replicate 4 Evt.sockWrite
    ++ List.replicate 2 Evt.sockWrite
    ++ List.replicate 2 Evt.sockWrite
    ++ List.replicate 8 Evt.sockWrite
    ++ [Evt.sockWrite]
    ++ List.replicate (28 + L) Evt.sockWrite
    ++ [Evt.sockWrite]
    ++ List.replicate 4 Evt.sockWrite
    ++ List.replicate 4 Evt.sockWrite
    ++ List.replicate 4 Evt.sockWrite
    ++ [Evt.sockWrite]
    ++ List.replicate 8 Evt.sockWrite
    ++ List.replicate 8 Evt.sockWrite
    ++ List.replicate 8 Evt.sockWrite
    ++ List.replicate 8 Evt.sockWrite
    ++ List.replicate 4 Evt.sockWrite
    ++ List.replicate 4 Evt.sockWrite
    ++ [Evt.sockWrite]

/-- Concrete instantiation of the external collaborators used by witnesses:
an injective-enough stand-in compressor and a decoder on plain ASCII. -/
def extTest : Ext :=
  { compress := fun _ => [9, 9]
    decodeLossy := fun bs => String.mk (bs.map Char.ofNat) }

/-- The state of a session right after the thread spawn in `main`. -/
def initState (ps : List Player) (c : Nat) (inp : List Nat) : SessionState :=
  { username := none, players := ps, counter := c, input := inp
    output := [], trace := [] }

/-- UTF-8 bytes of the username used in concrete login scenarios. -/
def steveBytes : List Nat := [83, 116, 101, 118, 101]

/-- UTF-8 bytes of the password used in concrete login scenarios. -/
def pwBytes : List Nat := [120]

/-- A fresh process state about to process one LOGIN packet. -/
def c3state : SessionState := initState [] 1 (loginRequestBytes 3 steveBytes pwBytes 42 0)

/-- The state carried by any outcome. -/
def mstate {α : Type} : MResult α → SessionState
  | .ok _ s => s
  | .err _ s => s
  | .panicked s => s

/-- A computation touches the registry at most at index `i`: every other
index, and the registry length, are preserved whatever the outcome. -/
def PreservesOff (i : Nat) {α : Type} (m : M α) : Prop :=
  ∀ s : SessionState,
    (mstate (m s)).players.length = s.players.length ∧
      ∀ j : Nat, j ≠ i → (mstate (m s)).players[j]? = s.players[j]?

/-- A computation that leaves the registry untouched in every outcome. -/
def PlayersId {α : Type} (m : M α) : Prop :=
  ∀ s : SessionState, (mstate (m s)).players = s.players

/-! ## Monad unfolding lemmas -/

theorem bind_def {α β : Type} (x : M α) (f : α → M β) : x >>= f = mBind x f := rfl

theorem pure_def {α : Type} (a : α) : (pure a : M α) = mPure a := rfl

theorem mBind_ok {α β : Type} {x : M α} {s s1 : SessionState} {a : α}
    (f : α → M β) (h : x s = .ok a s1) : mBind x f s = f a s1 := by
  simp only [mBind, h]

theorem mBind_err {α β : Type} {x : M α} {s s1 : SessionState} {e : Err}
    (f : α → M β) (h : x s = .err e s1) : mBind x f s = .err e s1 := by
  simp only [mBind, h]

theorem mBind_panicked {α β : Type} {x : M α} {s s1 : SessionState}
    (f : α → M β) (h : x s = .panicked s1) : mBind x f s = .panicked s1 := by
  simp only [mBind, h]

/-! ## Byte-vector lemmas -/

theorem beBytesOfNat_length (w v : Nat) : (beBytesOfNat w v).length = w := by
  induction w generalizing v with
  | zero => rfl
  | succ w ih => simp [beBytesOfNat, ih]

theorem beBytesOfNat_lt (w v : Nat) : ∀ b ∈ beBytesOfNat w v, b < 256 := by
  induction w generalizing v with
  | zero => simp [beBytesOfNat]
  | succ w ih =>
    intro b hb
    simp only [beBytesOfNat, List.mem_cons] at hb
    rcases hb with h | h
    · omega
    · exact ih v b h

theorem beVal_foldl (l : List Nat) (a : Nat) :
    l.foldl (fun acc c => acc * 256 + c) a = a * 256 ^ l.length + beVal l := by
  induction l generalizing a with
  | nil => simp [beVal]
  | cons c t ih =>
    have h1 : (c :: t).foldl (fun acc d => acc * 256 + d) a
        = t.foldl (fun acc d => acc * 256 + d) (a * 256 + c) := rfl
    have h2 : beVal (c :: t) = t.foldl (fun acc d => acc * 256 + d) c := by
      simp [beVal]
    rw [h1, ih (a * 256 + c), h2, ih c, List.length_cons]
    ring

theorem beVal_cons (b : Nat) (bs : List Nat) :
    beVal (b :: bs) = b * 256 ^ bs.length + beVal bs := by
  have h2 : beVal (b :: bs) = bs.foldl (fun acc d => acc * 256 + d) b := by
    simp [beVal]
  rw [h2, beVal_foldl]

theorem beVal_beBytesOfNat (w v : Nat) : beVal (beBytesOfNat w v) = v % 256 ^ w := by
  induction w generalizing v with
  | zero => simp [beBytesOfNat, beVal, Nat.mod_one]
  | succ w ih =>
    rw [beBytesOfNat, beVal_cons, beBytesOfNat_length, ih, pow_succ, Nat.mod_mul]
    ring

theorem beVal_of_lt (w v : Nat) (h : v < 256 ^ w) :
    beVal (beBytesOfNat w v) = v := by
  rw [beVal_beBytesOfNat]
  exact Nat.mod_eq_of_lt h

/-! ## Primitive read/write specifications -/

theorem readU8M_cons {s : SessionState} {b : Nat} {rest : List Nat}
    (h : s.input = b :: rest) (hb : b < 256) :
    readU8M s = .ok b { s with input := rest, trace := s.trace ++ [Evt.sockRead] } := by
  simp [readU8M, h, Nat.mod_eq_of_lt hb]

theorem readU8M_nil {s : SessionState} (h : s.input = []) :
    readU8M s = .err .BitsError s := by
  simp [readU8M, h]

theorem readBytesM_exact {bs : List Nat} {rest : List Nat} {s : SessionState}
    (hb : ∀ b ∈ bs, b < 256) (h : s.input = bs ++ rest) :
    readBytesM bs.length s =
      .ok bs { s with input := rest,
                      trace := s.trace ++ List.replicate bs.length Evt.sockRead } := by
  induction bs generalizing s with
  | nil =>
    simp only [List.nil_append] at h
    simp [readBytesM, pure_def, mPure, ← h]
  | cons b t ih =>
    have hb0 : b < 256 := hb b (by simp)
    have ht : ∀ c ∈ t, c < 256 := fun c hc => hb c (by simp [hc])
    have h1 : s.input = b :: (t ++ rest) := by rw [h, List.cons_append]
    simp only [List.length_cons, readBytesM, bind_def]
    rw [mBind_ok _ (readU8M_cons h1 hb0)]
    rw [mBind_ok _ (ih ht rfl)]
    simp [pure_def, mPure, List.replicate_succ]

theorem writeU8M_spec {s : SessionState} {v : Nat} (hv : v < 256) :
    writeU8M v s = .ok ⟨⟩ { s with output := s.output ++ [v],
                                   trace := s.trace ++ [Evt.sockWrite] } := by
  simp [writeU8M, Nat.mod_eq_of_lt hv]

theorem writeBytesM_spec {bs : List Nat} {s : SessionState}
    (hb : ∀ b ∈ bs, b < 256) :
    writeBytesM bs s =
      .ok ⟨⟩ { s with output := s.output ++ bs,
                      trace := s.trace ++ List.replicate bs.length Evt.sockWrite } := by
  induction bs generalizing s with
  | nil =>
    simp [writeBytesM, pure_def, mPure]
  | cons b t ih =>
    have hb0 : b < 256 := hb b (by simp)
    have ht : ∀ c ∈ t, c < 256 := fun c hc => hb c (by simp [hc])
    simp only [writeBytesM, bind_def]
    rw [mBind_ok _ (writeU8M_spec hb0)]
    rw [ih ht]
    simp [List.replicate_succ]

theorem readBytesM_beBytes {w : Nat} {s : SessionState} {v : Nat} {rest : List Nat}
    (h : s.input = beBytesOfNat w v ++ rest) :
    readBytesM w s = .ok (beBytesOfNat w v)
      { s with input := rest, trace := s.trace ++ List.replicate w Evt.sockRead } := by
  have key := readBytesM_exact (beBytesOfNat_lt w v) h
  rwa [beBytesOfNat_length] at key

theorem pow256_eq_pow2 (w : Nat) : (256 : Nat) ^ w = 2 ^ (8 * w) := by
  rw [show (256 : Nat) = 2 ^ 8 by norm_num, ← pow_mul]

theorem readBeU16M_of {s : SessionState} {v : Nat} {rest : List Nat}
    (hv : v < 2 ^ 16) (h : s.input = beBytesOfNat 2 v ++ rest) :
    readBeU16M s = .ok v
      { s with input := rest, trace := s.trace ++ List.replicate 2 Evt.sockRead } := by
  simp only [readBeU16M, bind_def]
  rw [mBind_ok _ (readBytesM_beBytes h)]
  have hv2 : v < 256 ^ 2 := by rw [pow256_eq_pow2]; exact hv
  simp [pure_def, mPure, beVal_of_lt 2 v hv2]

theorem readBeU32M_of {s : SessionState} {v : Nat} {rest : List Nat}
    (hv : v < 2 ^ 32) (h : s.input = beBytesOfNat 4 v ++ rest) :
    readBeU32M s = .ok v
      { s with input := rest, trace := s.trace ++ List.replicate 4 Evt.sockRead } := by
  simp only [readBeU32M, bind_def]
  rw [mBind_ok _ (readBytesM_beBytes h)]
  have hv2 : v < 256 ^ 4 := by rw [pow256_eq_pow2]; exact hv
  simp [pure_def, mPure, beVal_of_lt 4 v hv2]

theorem readBeU64M_of {s : SessionState} {v : Nat} {rest : List Nat}
    (hv : v < 2 ^ 64) (h : s.input = beBytesOfNat 8 v ++ rest) :
    readBeU64M s = .ok v
      { s with input := rest, trace := s.trace ++ List.replicate 8 Evt.sockRead } := by
  simp only [readBeU64M, bind_def]
  rw [mBind_ok _ (readBytesM_beBytes h)]
  have hv2 : v < 256 ^ 8 := by rw [pow256_eq_pow2]; exact hv
  simp [pure_def, mPure, beVal_of_lt 8 v hv2]

theorem readF64M_of {s : SessionState} {v : Nat} {rest : List Nat}
    (hv : v < 2 ^ 64) (h : s.input = beBytesOfNat 8 v ++ rest) :
    readF64M s = .ok v
      { s with input := rest, trace := s.trace ++ List.replicate 8 Evt.sockRead } := by
  simp only [readF64M, bind_def]
  rw [mBind_ok _ (readBytesM_beBytes h)]
  have hv2 : v < 256 ^ 8 := by rw [pow256_eq_pow2]; exact hv
  simp [pure_def, mPure, beVal_of_lt 8 v hv2]

theorem readF32M_of {s : SessionState} {v : Nat} {rest : List Nat}
    (hv : v < 2 ^ 32) (h : s.input = beBytesOfNat 4 v ++ rest) :
    readF32M s = .ok v
      { s with input := rest, trace := s.trace ++ List.replicate 4 Evt.sockRead } := by
  simp only [readF32M, bind_def]
  rw [mBind_ok _ (readBytesM_beBytes h)]
  have hv2 : v < 256 ^ 4 := by rw [pow256_eq_pow2]; exact hv
  simp [pure_def, mPure, beVal_of_lt 4 v hv2]

theorem readStringM_of (ext : Ext) {s : SessionState} {bs rest : List Nat}
    (hlen : bs.length < 2 ^ 16) (hb : ∀ b ∈ bs, b < 256)
    (h : s.input = beBytesOfNat 2 bs.length ++ bs ++ rest) :
    readStringM ext s = .ok (ext.decodeLossy bs)
      { s with input := rest,
               trace := s.trace ++ List.replicate (2 + bs.length) Evt.sockRead } := by
  simp only [readStringM, bind_def]
  rw [mBind_ok _ (readBeU16M_of hlen (by rw [h, List.append_assoc]))]
  rw [mBind_ok _ (readBytesM_exact hb rfl)]
  simp [pure_def, mPure, List.replicate_add, List.append_assoc]

theorem writeBytesM_beBytes (w v : Nat) {s : SessionState} :
    writeBytesM (beBytesOfNat w v) s =
      .ok ⟨⟩ { s with output := s.output ++ beBytesOfNat w v,
                      trace := s.trace ++ List.replicate w Evt.sockWrite } := by
  have key := writeBytesM_spec (beBytesOfNat_lt w v) (s := s)
  rwa [beBytesOfNat_length] at key

theorem writeBeU16M_spec (v : Nat) {s : SessionState} :
    writeBeU16M v s = .ok ⟨⟩ { s with output := s.output ++ beBytesOfNat 2 v,
                                      trace := s.trace ++ List.replicate 2 Evt.sockWrite } :=
  writeBytesM_beBytes 2 v

theorem writeBeU64M_spec (v : Nat) {s : SessionState} :
    writeBeU64M v s = .ok ⟨⟩ { s with output := s.output ++ beBytesOfNat 8 v,
                                      trace := s.trace ++ List.replicate 8 Evt.sockWrite } :=
  writeBytesM_beBytes 8 v

theorem writeBeI32M_spec (v : Int) {s : SessionState} :
    writeBeI32M v s = .ok ⟨⟩ { s with output := s.output ++ i32Bytes v,
                                      trace := s.trace ++ List.replicate 4 Evt.sockWrite } := by
  have key := writeBytesM_beBytes 4 (v % 2 ^ 32).toNat (s := s)
  rw [writeBeI32M, i32Bytes]
  exact key

theorem writeBeI16M_spec (v : Int) {s : SessionState} :
    writeBeI16M v s = .ok ⟨⟩ { s with output := s.output ++ i16Bytes v,
                                      trace := s.trace ++ List.replicate 2 Evt.sockWrite } := by
  have key := writeBytesM_beBytes 2 (v % 2 ^ 16).toNat (s := s)
  rw [writeBeI16M, i16Bytes]
  exact key

theorem writeF64M_spec (bits : Nat) {s : SessionState} :
    writeF64M bits s = .ok ⟨⟩ { s with output := s.output ++ beBytesOfNat 8 bits,
                                       trace := s.trace ++ List.replicate 8 Evt.sockWrite } :=
  writeBytesM_beBytes 8 bits

theorem writeF32M_spec (bits : Nat) {s : SessionState} :
    writeF32M bits s = .ok ⟨⟩ { s with output := s.output ++ beBytesOfNat 4 bits,
                                       trace := s.trace ++ List.replicate 4 Evt.sockWrite } :=
  writeBytesM_beBytes 4 bits

/-! ## Registry helper lemmas -/

theorem modifyNth_length (f : Player → Player) (i : Nat) (l : List Player) :
    (modifyNth f i l).length = l.length := by
  induction l generalizing i with
  | nil => cases i <;> rfl
  | cons p ps ih =>
    cases i with
    | zero => rfl
    | succ n => simp [modifyNth, ih]

theorem modifyNth_getElem?_ne (f : Player → Player) {i j : Nat} (l : List Player)
    (hij : j ≠ i) : (modifyNth f i l)[j]? = l[j]? := by
  induction l generalizing i j with
  | nil => cases i <;> rfl
  | cons p ps ih =>
    cases i with
    | zero =>
      cases j with
      | zero => exact absurd rfl hij
      | succ m => simp [modifyNth]
    | succ n =>
      cases j with
      | zero => simp [modifyNth]
      | succ m => simpa [modifyNth] using ih (fun hc => hij (by omega))

theorem findIdx1_eq_none {q : Player → Bool} {l : List Player}
    (h : ∀ p ∈ l, ¬ q p) : findIdx1 q l = none := by
  induction l with
  | nil => rfl
  | cons p ps ih =>
    have h0 : ¬ q p := h p (by simp)
    simp [findIdx1, h0, ih (fun r hr => h r (by simp [hr]))]

theorem findIdx1_some {q : Player → Bool} {l : List Player} {i : Nat}
    (h : findIdx1 q l = some i) : ∃ p, l[i]? = some p ∧ q p = true := by
  induction l generalizing i with
  | nil => simp [findIdx1] at h
  | cons p ps ih =>
    by_cases hq : q p
    · rw [findIdx1, if_pos hq] at h
      injection h with h
      subst h
      exact ⟨p, by simp, hq⟩
    · rw [findIdx1, if_neg hq] at h
      cases hfi : findIdx1 q ps with
      | none => rw [hfi] at h; simp at h
      | some i0 =>
        rw [hfi] at h
        simp only [Option.map] at h
        injection h with h
        subst h
        obtain ⟨r, hr, hqr⟩ := ih hfi
        exact ⟨r, by simpa using hr, hqr⟩

/-! ## Frame lemmas: which computations can touch the registry -/

theorem PlayersId.off {α : Type} {i : Nat} {m : M α} (h : PlayersId m) :
    PreservesOff i m := by
  intro s
  rw [h s]
  exact ⟨rfl, fun j _ => rfl⟩

theorem playersId_mBind {α β : Type} {x : M α} {f : α → M β}
    (hx : PlayersId x) (hf : ∀ a, PlayersId (f a)) : PlayersId (mBind x f) := by
  intro s
  cases hxs : x s with
  | ok a s1 =>
    have h1 := hx s
    rw [hxs] at h1
    simp only [mBind, hxs]
    rw [hf a s1]
    exact h1
  | err e s1 =>
    have h1 := hx s
    rw [hxs] at h1
    simpa only [mBind, hxs] using h1
  | panicked s1 =>
    have h1 := hx s
    rw [hxs] at h1
    simpa only [mBind, hxs] using h1

theorem playersId_mPure {α : Type} (a : α) : PlayersId (mPure a) := fun _ => rfl

theorem playersId_pure {α : Type} (a : α) : PlayersId (pure a : M α) :=
  playersId_mPure a

theorem playersId_readU8M : PlayersId readU8M := by
  intro s
  cases h : s.input with
  | nil => simp [mstate, readU8M, h]
  | cons b rest => simp [mstate, readU8M, h]

theorem playersId_readBytesM (n : Nat) : PlayersId (readBytesM n) := by
  induction n with
  | zero => exact playersId_pure []
  | succ n ih =>
    simp only [readBytesM, bind_def]
    exact playersId_mBind playersId_readU8M
      (fun b => playersId_mBind ih (fun bs => playersId_pure (b :: bs)))

theorem playersId_readF64M : PlayersId readF64M := by
  simp only [readF64M, bind_def]
  exact playersId_mBind (playersId_readBytesM 8) (fun bs => playersId_pure (beVal bs))

theorem playersId_readF32M : PlayersId readF32M := by
  simp only [readF32M, bind_def]
  exact playersId_mBind (playersId_readBytesM 4) (fun bs => playersId_pure (beVal bs))

theorem preservesOff_mBind {i : Nat} {α β : Type} {x : M α} {f : α → M β}
    (hx : PreservesOff i x) (hf : ∀ a, PreservesOff i (f a)) :
    PreservesOff i (mBind x f) := by
  intro s
  cases hxs : x s with
  | ok a s1 =>
    have h1 := hx s
    rw [hxs] at h1
    have h2 := hf a s1
    simp only [mBind, hxs]
    refine ⟨h2.1.trans ?_, fun j hj => (h2.2 j hj).trans ?_⟩
    · simpa [mstate] using h1.1
    · simpa [mstate] using h1.2 j hj
  | err e s1 =>
    have h1 := hx s
    rw [hxs] at h1
    simpa only [mBind, hxs] using h1
  | panicked s1 =>
    have h1 := hx s
    rw [hxs] at h1
    simpa only [mBind, hxs] using h1

theorem preservesOff_setF (i : Nat) (f : Player → Player) :
    PreservesOff i (setF i f) := by
  intro s
  refine ⟨?_, fun j hj => ?_⟩
  · simp [mstate, setF, modifyS, modifyNth_length]
  · simp [mstate, setF, modifyS, modifyNth_getElem?_ne f s.players hj]

theorem preservesOff_updatePositionAndLook (i : Nat) :
    PreservesOff i (updatePositionAndLook i) := by
  unfold updatePositionAndLook
  simp only [bind_def]
  refine preservesOff_mBind playersId_readF64M.off (fun x => ?_)
  refine preservesOff_mBind (preservesOff_setF i _) (fun _ => ?_)
  refine preservesOff_mBind playersId_readF64M.off (fun st => ?_)
  refine preservesOff_mBind (preservesOff_setF i _) (fun _ => ?_)
  refine preservesOff_mBind playersId_readF64M.off (fun y => ?_)
  refine preservesOff_mBind (preservesOff_setF i _) (fun _ => ?_)
  refine preservesOff_mBind playersId_readF64M.off (fun z => ?_)
  refine preservesOff_mBind (preservesOff_setF i _) (fun _ => ?_)
  refine preservesOff_mBind playersId_readF32M.off (fun yw => ?_)
  refine preservesOff_mBind (preservesOff_setF i _) (fun _ => ?_)
  refine preservesOff_mBind playersId_readF32M.off (fun pt => ?_)
  refine preservesOff_mBind (preservesOff_setF i _) (fun _ => ?_)
  refine preservesOff_mBind playersId_readU8M.off (fun g => ?_)
  exact preservesOff_setF i _

/-! ## `write_chunk` specification -/

set_option maxHeartbeats 1600000 in
theorem writeChunkM_spec (ext : Ext) (c : Chunk) {s : SessionState}
    (hb : ∀ b ∈ ext.compress (c.blocks ++ c.data ++ c.block_light ++ c.sky_light), b < 256) :
    writeChunkM ext c s = .ok ⟨⟩
      { s with
        output := s.output ++ chunkWire ext c,
        trace := s.trace ++ List.replicate
          (28 + (ext.compress (c.blocks ++ c.data ++ c.block_light ++ c.sky_light)).length)
          Evt.sockWrite } := by
  unfold writeChunkM
  simp only [bind_def]
  rw [mBind_ok _ (writeU8M_spec (by norm_num [PRE_CHUNK]))]
  rw [mBind_ok _ (writeBeI32M_spec c.x)]
  rw [mBind_ok _ (writeBeI32M_spec c.z)]
  rw [mBind_ok _ (writeU8M_spec (by norm_num))]
  rw [mBind_ok _ (writeU8M_spec (by norm_num [MAP_CHUNK]))]
  rw [mBind_ok _ (writeBeI32M_spec (c.x * 16))]
  rw [mBind_ok _ (writeBeI16M_spec 0)]
  rw [mBind_ok _ (writeBeI32M_spec (c.z * 16))]
  rw [mBind_ok _ (writeU8M_spec (by norm_num))]
  rw [mBind_ok _ (writeU8M_spec (by norm_num))]
  rw [mBind_ok _ (writeU8M_spec (by norm_num))]
  rw [mBind_ok _ (writeBeI32M_spec _)]
  rw [writeBytesM_spec hb]
  have h28 : List.replicate 28 Evt.sockWrite
      = [Evt.sockWrite, Evt.sockWrite, Evt.sockWrite, Evt.sockWrite, Evt.sockWrite,
         Evt.sockWrite, Evt.sockWrite, Evt.sockWrite, Evt.sockWrite, Evt.sockWrite,
         Evt.sockWrite, Evt.sockWrite, Evt.sockWrite, Evt.sockWrite, Evt.sockWrite,
         Evt.sockWrite, Evt.sockWrite, Evt.sockWrite, Evt.sockWrite, Evt.sockWrite,
         Evt.sockWrite, Evt.sockWrite, Evt.sockWrite, Evt.sockWrite, Evt.sockWrite,
         Evt.sockWrite, Evt.sockWrite, Evt.sockWrite] := rfl
  have h4 : List.replicate 4 Evt.sockWrite
      = [Evt.sockWrite, Evt.sockWrite, Evt.sockWrite, Evt.sockWrite] := rfl
  have h2 : List.replicate 2 Evt.sockWrite = [Evt.sockWrite, Evt.sockWrite] := rfl
  simp [chunkWire, List.replicate_add, h28, h4, h2, List.append_assoc]

/-! ## Small state-operation specifications -/

theorem modifyS_spec (f : SessionState → SessionState) (s : SessionState) :
    modifyS f s = .ok ⟨⟩ (f s) := rfl

theorem getS_spec (s : SessionState) : getS s = .ok s s := rfl

theorem fetchAddM_spec (s : SessionState) :
    fetchAddM s = .ok (toSignedI32 s.counter) { s with counter := (s.counter + 1) % 2 ^ 32 } := rfl

theorem modifyNth_append_singleton (f : Player → Player) (l : List Player) (p : Player) :
    modifyNth f l.length (l ++ [p]) = l ++ [f p] := by
  induction l with
  | nil => rfl
  | cons q qs ih => simp [modifyNth, List.cons_append, ih]

/-! ## The LOGIN path -/

set_option maxHeartbeats 3200000 in
theorem loginArm_spec (ext : Ext) {s : SessionState} (ub pb : List Nat)
    (seed dim : Nat) (rest : List Nat)
    (hub : ∀ b ∈ ub, b < 256) (hpb : ∀ b ∈ pb, b < 256)
    (hublen : ub.length < 2 ^ 16) (hpblen : pb.length < 2 ^ 16)
    (hseed : seed < 2 ^ 64) (hdim : dim < 256)
    (hcomp : ∀ b ∈ ext.compress (initialChunk.blocks ++ initialChunk.data
      ++ initialChunk.block_light ++ initialChunk.sky_light), b < 256)
    (hin : s.input = loginRequestBytes 3 ub pb seed dim ++ rest) :
    loginArm ext s = .ok ⟨⟩
      { username := some (ext.decodeLossy ub)
        players := s.players ++ [{ freshPlayer (ext.decodeLossy ub) with logged_in := true }]
        counter := (s.counter + 1) % 2 ^ 32
        input := rest
        output := s.output ++ loginResponseBytes s.counter seed dim
          ++ chunkWire ext initialChunk ++ spawnPosBytes ++ posLookBytes
        trace := s.trace ++ loginTraceEvts ub.length pb.length
          (ext.compress (initialChunk.blocks ++ initialChunk.data
            ++ initialChunk.block_light ++ initialChunk.sky_light)).length } := by
  have h1 : s.input = beBytesOfNat 4 3
      ++ (beBytesOfNat 2 ub.length ++ (ub ++ (beBytesOfNat 2 pb.length
        ++ (pb ++ (beBytesOfNat 8 seed ++ (dim :: rest)))))) := by
    simp [hin, loginRequestBytes, List.append_assoc]
  unfold loginArm
  simp only [bind_def]
  rw [mBind_ok _ (readBeU32M_of (by norm_num) h1)]
  rw [if_neg (by norm_num)]
  rw [mBind_ok _ (readStringM_of ext hublen hub rfl)]
  rw [mBind_ok _ (modifyS_spec _ _)]
  rw [mBind_ok _ (readStringM_of ext hpblen hpb rfl)]
  rw [mBind_ok _ (readBeU64M_of hseed rfl)]
  rw [mBind_ok _ (readU8M_cons rfl hdim)]
  rw [mBind_ok _ (fetchAddM_spec _)]
  rw [mBind_ok _ (writeU8M_spec (by norm_num [LOGIN]))]
  rw [mBind_ok _ (writeBeI32M_spec _)]
  rw [mBind_ok _ (writeBeU16M_spec 0)]
  rw [mBind_ok _ (writeBeU16M_spec 0)]
  rw [mBind_ok _ (writeBeU64M_spec seed)]
  rw [mBind_ok _ (writeU8M_spec hdim)]
  rw [mBind_ok _ (modifyS_spec _ _)]
  rw [mBind_ok _ (writeChunkM_spec ext initialChunk hcomp)]
  rw [mBind_ok _ (writeU8M_spec (by norm_num [SPAWN_POSITION]))]
  rw [mBind_ok _ (writeBeI32M_spec _)]
  rw [mBind_ok _ (writeBeI32M_spec _)]
  rw [mBind_ok _ (writeBeI32M_spec _)]
  rw [mBind_ok _ (writeU8M_spec (by norm_num [PLAYER_POSITION_AND_LOOK]))]
  rw [mBind_ok _ (writeF64M_spec _)]
  rw [mBind_ok _ (writeF64M_spec _)]
  rw [mBind_ok _ (writeF64M_spec _)]
  rw [mBind_ok _ (writeF64M_spec _)]
  rw [mBind_ok _ (writeF32M_spec _)]
  rw [mBind_ok _ (writeF32M_spec _)]
  rw [mBind_ok _ (writeU8M_spec (by norm_num [freshPlayer]))]
  rw [modifyS_spec]
  simp only [freshPlayer]
  simp [loginResponseBytes, loginTraceEvts, spawnPosBytes, posLookBytes,
    modifyNth_append_singleton, List.append_assoc, freshPlayer]

/-! ## Entity counter arithmetic -/

theorem counterIter_closed (n : Nat) : counterIter n = (1 + n) % 2 ^ 32 := by
  induction n with
  | zero =>
    have : (1 : Nat) % 2 ^ 32 = 1 := Nat.mod_eq_of_lt (by norm_num)
    simp [counterIter, this]
  | succ n ih =>
    show (fetchAdd (counterIter n)).2 = _
    rw [ih]
    simp only [fetchAdd]
    have e32 : (2 : Nat) ^ 32 = 4294967296 := by norm_num
    rw [e32]
    omega

theorem toSignedI32_of_lt {c : Nat} (h : c < 2 ^ 31) : toSignedI32 c = c := by
  unfold toSignedI32
  have h32 : c < 2 ^ 32 := lt_trans h (by norm_num)
  rw [Nat.mod_eq_of_lt h32, if_pos h]

theorem entityIdOfLogin_eq (k : Nat) (hk : 1 ≤ k) :
    entityIdOfLogin k = toSignedI32 (k % 2 ^ 32) := by
  unfold entityIdOfLogin fetchAdd
  simp only
  rw [counterIter_closed]
  congr 1
  omega

/-! ## Claim theorems -/

/-- C1: the claim says every Channel primitive failure, including a failure
of the leading packet-id read, makes `handle_client` return an error.  The
code disagrees: `if let Ok(packet_id) = stream.read_u8()` swallows the
failed id read, so with the stream at end of input the loop never returns —
it busy-retries forever (here: runs out of any amount of fuel with the
state unchanged) instead of producing an error. -/
theorem c1_packet_id_read_failure_never_ends_loop (ext : Ext) (n : Nat)
    (s : SessionState) (h : s.input = []) :
    handleClient ext n s = .fuelOut s := by
  induction n with
  | zero => rfl
  | succ n ih =>
    simp only [handleClient, readU8M_nil h]
    exact ih

/-- C1, witness: a session whose client closed the stream immediately. -/
theorem c1_witness :
    (initState [] 1 []).input = [] ∧
      handleClient extTest 5 (initState [] 1 []) = .fuelOut (initState [] 1 []) :=
  ⟨rfl, c1_packet_id_read_failure_never_ends_loop extTest 5 (initState [] 1 []) rfl⟩

/-- C9: a packet id outside the handled set is only logged: the dispatch
returns with the state untouched (no writes, no registry or counter
change), and the loop goes on to the next iteration. -/
theorem c9_unknown_packet_id_continues (ext : Ext) (packetId : Nat) (n : Nat)
    (s : SessionState) (rest : List Nat)
    (hlt : packetId < 256) (hunk : packetId ∉ handledPacketIds)
    (hin : s.input = packetId :: rest) :
    handlePacket ext packetId s = .ok ⟨⟩ s ∧
      handleClient ext (n + 1) s =
        handleClient ext n { s with input := rest, trace := s.trace ++ [Evt.sockRead] } := by
  simp only [handledPacketIds, List.mem_cons, List.not_mem_nil, or_false, not_or] at hunk
  obtain ⟨h0, h1, h2, h3, h10, h11, h12, h13⟩ := hunk
  have hp : ∀ t : SessionState, handlePacket ext packetId t = .ok ⟨⟩ t := by
    intro t
    unfold handlePacket
    rw [if_neg h0, if_neg h1, if_neg h13, if_neg h11, if_neg h12, if_neg h2,
      if_neg h3, if_neg h10]
    rfl
  refine ⟨hp s, ?_⟩
  simp only [handleClient, readU8M_cons hin hlt, hp]

/-- C9, witness: a `TIME_UPDATE` (0x04) packet id. -/
theorem c9_witness :
    TIME_UPDATE < 256 ∧ TIME_UPDATE ∉ handledPacketIds ∧
      (initState [] 1 [TIME_UPDATE]).input = TIME_UPDATE :: [] ∧
      (handlePacket extTest TIME_UPDATE (initState [] 1 [TIME_UPDATE])
          = .ok ⟨⟩ (initState [] 1 [TIME_UPDATE]) ∧
        handleClient extTest (3 + 1) (initState [] 1 [TIME_UPDATE]) =
          handleClient extTest 3 { initState [] 1 [TIME_UPDATE] with input := ([]), trace := ((initState [] 1 [TIME_UPDATE]).trace ++ [Evt.sockRead]) }) :=
  ⟨by decide, by decide, rfl,
    c9_unknown_packet_id_continues extTest TIME_UPDATE 3 (initState [] 1 [TIME_UPDATE]) []
      (by decide) (by decide) rfl⟩

/-- C4: a LOGIN whose u32 protocol version differs from 3 ends the session
with `InvalidProtocolVersion`; no byte is written and the registry and the
entity counter are untouched (only the four version bytes were consumed). -/
theorem c4_invalid_protocol_version (ext : Ext) (s : SessionState)
    (v : Nat) (rest : List Nat) (hv : v < 2 ^ 32) (hv3 : v ≠ 3)
    (hin : s.input = beBytesOfNat 4 v ++ rest) :
    handlePacket ext LOGIN s =
      .err Err.InvalidProtocolVersion
        { s with input := rest, trace := s.trace ++ List.replicate 4 Evt.sockRead } := by
  unfold handlePacket
  rw [if_neg (by decide), if_pos rfl]
  unfold loginArm
  simp only [bind_def]
  rw [mBind_ok _ (readBeU32M_of hv hin)]
  rw [if_pos hv3]
  rfl

/-- C4, witness: protocol version 99. -/
theorem c4_witness :
    (99 : Nat) < 2 ^ 32 ∧ (99 : Nat) ≠ 3 ∧
      (initState [] 1 (beBytesOfNat 4 99)).input = beBytesOfNat 4 99 ++ [] ∧
      handlePacket extTest LOGIN (initState [] 1 (beBytesOfNat 4 99)) =
        .err Err.InvalidProtocolVersion
          { initState [] 1 (beBytesOfNat 4 99) with input := ([]), trace := ((initState [] 1 (beBytesOfNat 4 99)).trace ++ List.replicate 4 Evt.sockRead) } :=
  ⟨by norm_num, by norm_num, by simp [initState],
    c4_invalid_protocol_version extTest (initState [] 1 (beBytesOfNat 4 99)) 99 []
      (by norm_num) (by norm_num) (by simp [initState])⟩

/-- C10: before a successful LOGIN the session username is unset; the pose
packet arms scan the registry with a predicate that unwraps it.  With a
nonempty registry the predicate runs and panics; the `PLAYER` arm first
consumes its ground byte and then panics.  With an empty registry `find`
never evaluates the predicate, so no panic occurs and the update is
dropped. -/
theorem c10_pose_before_login_panics (ext : Ext) (s : SessionState)
    (hu : s.username = none) :
    (s.players ≠ [] →
      handlePacket ext PLAYER_POSITION s = .panicked s ∧
      handlePacket ext PLAYER_LOOK s = .panicked s ∧
      handlePacket ext PLAYER_POSITION_AND_LOOK s = .panicked s ∧
      (∀ g rest, s.input = g :: rest → g < 256 →
        handlePacket ext PLAYER s =
          .panicked { s with input := rest, trace := (s.trace ++ [Evt.sockRead]) })) ∧
    (s.players = [] →
      handlePacket ext PLAYER_POSITION s = .ok ⟨⟩ s ∧
      handlePacket ext PLAYER_LOOK s = .ok ⟨⟩ s ∧
      handlePacket ext PLAYER_POSITION_AND_LOOK s = .ok ⟨⟩ s ∧
      (∀ g rest, s.input = g :: rest → g < 256 →
        handlePacket ext PLAYER s =
          .ok ⟨⟩ { s with input := rest, trace := (s.trace ++ [Evt.sockRead]) })) := by
  constructor
  · intro hne
    obtain ⟨p0, ps, hps⟩ := List.exists_cons_of_ne_nil hne
    have hscan : scanPlayers s.username s.players = none := by
      rw [hu, hps]
      rfl
    refine ⟨?_, ?_, ?_, ?_⟩
    · unfold handlePacket
      rw [if_neg (by decide), if_neg (by decide), if_neg (by decide), if_pos rfl]
      simp only [bind_def]
      rw [mBind_ok _ (getS_spec s), hscan]
      rfl
    · unfold handlePacket
      rw [if_neg (by decide), if_neg (by decide), if_neg (by decide), if_neg (by decide),
        if_pos rfl]
      simp only [bind_def]
      rw [mBind_ok _ (getS_spec s), hscan]
      rfl
    · unfold handlePacket
      rw [if_neg (by decide), if_neg (by decide), if_pos rfl]
      simp only [bind_def]
      rw [mBind_ok _ (getS_spec s), hscan]
      rfl
    · intro g rest hin hg
      unfold handlePacket
      rw [if_neg (by decide), if_neg (by decide), if_neg (by decide), if_neg (by decide),
        if_neg (by decide), if_neg (by decide), if_neg (by decide), if_pos rfl]
      simp only [bind_def]
      rw [mBind_ok _ (readU8M_cons hin hg)]
      rw [mBind_ok _ (getS_spec _)]
      dsimp only
      rw [hu, hps]
      rfl
  · intro hnil
    have hscan : scanPlayers s.username s.players = some none := by
      rw [hu, hnil]
      rfl
    refine ⟨?_, ?_, ?_, ?_⟩
    · unfold handlePacket
      rw [if_neg (by decide), if_neg (by decide), if_neg (by decide), if_pos rfl]
      simp only [bind_def]
      rw [mBind_ok _ (getS_spec s), hscan]
      rfl
    · unfold handlePacket
      rw [if_neg (by decide), if_neg (by decide), if_neg (by decide), if_neg (by decide),
        if_pos rfl]
      simp only [bind_def]
      rw [mBind_ok _ (getS_spec s), hscan]
      rfl
    · unfold handlePacket
      rw [if_neg (by decide), if_neg (by decide), if_pos rfl]
      simp only [bind_def]
      rw [mBind_ok _ (getS_spec s), hscan]
      rfl
    · intro g rest hin hg
      unfold handlePacket
      rw [if_neg (by decide), if_neg (by decide), if_neg (by decide), if_neg (by decide),
        if_neg (by decide), if_neg (by decide), if_neg (by decide), if_pos rfl]
      simp only [bind_def]
      rw [mBind_ok _ (readU8M_cons hin hg)]
      rw [mBind_ok _ (getS_spec _)]
      dsimp only
      rw [hu, hnil]
      rfl

/-- C10, witness: a `PLAYER_LOOK` before login with one registered player
panics; the same packet with an empty registry does not. -/
theorem c10_witness :
    (initState [freshPlayer ("B")] 1 []).username = none ∧
      (initState [freshPlayer ("B")] 1 []).players ≠ [] ∧
      handlePacket extTest PLAYER_LOOK (initState [freshPlayer ("B")] 1 [])
        = .panicked (initState [freshPlayer ("B")] 1 []) ∧
      (initState [] 1 []).username = none ∧
      (initState [] 1 []).players = [] ∧
      handlePacket extTest PLAYER_LOOK (initState [] 1 [])
        = .ok ⟨⟩ (initState [] 1 []) :=
  ⟨rfl, by simp [initState, freshPlayer], 
    ((c10_pose_before_login_panics extTest (initState [freshPlayer ("B")] 1 []) rfl).1
      (by simp [initState, freshPlayer])).2.1,
    rfl, rfl,
    ((c10_pose_before_login_panics extTest (initState [] 1 []) rfl).2 rfl).2.1⟩

/-- C2, counterexample: an authenticated session ("A") receives a
`PLAYER_POSITION_AND_LOOK` whose 41 payload bytes are available, but no
registry entry matches; the claim says the pose fields are consumed, yet
the handler returns with the input untouched (the reads sit inside the
match guard). -/
theorem c2_counterexample :
    handlePacket extTest PLAYER_POSITION_AND_LOOK
        { username := some ("A"), players := [freshPlayer ("B")], counter := 1, input := List.replicate 41 7, output := [], trace := [] }
      = .ok ⟨⟩ { username := some ("A"), players := [freshPlayer ("B")], counter := 1, input := List.replicate 41 7, output := [], trace := [] }
    ∧ (List.replicate 41 7 : List Nat).length = 41 := by
  constructor
  · decide
  · rfl

/-- C2, amended: only the `PLAYER` arm reads (and thus consumes) its field
before the registry scan; for `PLAYER_POSITION`, `PLAYER_LOOK` and
`PLAYER_POSITION_AND_LOOK`, when no registry entry matches the bound
username nothing is read — the packet body stays in the stream — and in
every no-match case the registry is unchanged. -/
theorem c2_amended_no_match_consumption (ext : Ext) (u : String) (s : SessionState)
    (hu : s.username = some u) (hnm : ∀ p ∈ s.players, p.username ≠ u) :
    handlePacket ext PLAYER_POSITION s = .ok ⟨⟩ s ∧
    handlePacket ext PLAYER_LOOK s = .ok ⟨⟩ s ∧
    handlePacket ext PLAYER_POSITION_AND_LOOK s = .ok ⟨⟩ s ∧
    (∀ g rest, s.input = g :: rest → g < 256 →
      handlePacket ext PLAYER s =
        .ok ⟨⟩ { s with input := rest, trace := (s.trace ++ [Evt.sockRead]) }) := by
  have hscan : scanPlayers s.username s.players = some none := by
    rw [hu]
    cases hps : s.players with
    | nil => rfl
    | cons p0 ps =>
      have hfi : findIdx1 (fun q => q.username == u) (p0 :: ps) = none := by
        refine findIdx1_eq_none ?_
        intro p hp
        simp only [beq_iff_eq]
        exact hnm p (hps ▸ hp)
      simp [scanPlayers, hfi]
  refine ⟨?_, ?_, ?_, ?_⟩
  · unfold handlePacket
    rw [if_neg (by decide), if_neg (by decide), if_neg (by decide), if_pos rfl]
    simp only [bind_def]
    rw [mBind_ok _ (getS_spec s), hscan]
    rfl
  · unfold handlePacket
    rw [if_neg (by decide), if_neg (by decide), if_neg (by decide), if_neg (by decide),
      if_pos rfl]
    simp only [bind_def]
    rw [mBind_ok _ (getS_spec s), hscan]
    rfl
  · unfold handlePacket
    rw [if_neg (by decide), if_neg (by decide), if_pos rfl]
    simp only [bind_def]
    rw [mBind_ok _ (getS_spec s), hscan]
    rfl
  · intro g rest hin hg
    unfold handlePacket
    rw [if_neg (by decide), if_neg (by decide), if_neg (by decide), if_neg (by decide),
      if_neg (by decide), if_neg (by decide), if_neg (by decide), if_pos rfl]
    simp only [bind_def]
    rw [mBind_ok _ (readU8M_cons hin hg)]
    rw [mBind_ok _ (getS_spec _)]
    dsimp only
    rw [show scanPlayers s.username s.players = some none from hscan]
    rfl

/-- C2, witness for the amended statement: authenticated as "A" with only a
"B" entry; `PLAYER_POSITION_AND_LOOK` consumes nothing, `PLAYER` consumes
exactly its one ground byte. -/
theorem c2_witness :
    ({ username := some ("A"), players := [freshPlayer ("B")], counter := 1, input := [5, 6], output := [], trace := [] } : SessionState).username = some ("A") ∧
      (∀ p ∈ ({ username := some ("A"), players := [freshPlayer ("B")], counter := 1, input := [5, 6], output := [], trace := [] } : SessionState).players, p.username ≠ ("A" : String)) ∧
      handlePacket extTest PLAYER_POSITION_AND_LOOK { username := some ("A"), players := [freshPlayer ("B")], counter := 1, input := [5, 6], output := [], trace := [] }
        = .ok ⟨⟩ { username := some ("A"), players := [freshPlayer ("B")], counter := 1, input := [5, 6], output := [], trace := [] } ∧
      handlePacket extTest PLAYER { username := some ("A"), players := [freshPlayer ("B")], counter := 1, input := [5, 6], output := [], trace := [] }
        = .ok ⟨⟩ { username := some ("A"), players := [freshPlayer ("B")], counter := 1, input := [6], output := [], trace := [Evt.sockRead] } := by
  refine ⟨rfl, by decide, ?_, ?_⟩
  · exact (c2_amended_no_match_consumption extTest ("A") _ rfl (by decide)).2.2.1
  · exact (c2_amended_no_match_consumption extTest ("A") _ rfl (by decide)).2.2.2
      5 [6] rfl (by norm_num)

/-- C8: a `PLAYER_POSITION_AND_LOOK` dispatched by a session bound to `u`
can touch at most the first registry entry whose username is `u`: the
registry keeps its length and every entry whose username differs from `u`
is unchanged in all fields, whatever the outcome (including mid-packet
read failures). -/
theorem c8_frame_other_players_unchanged (ext : Ext) (u : String) (s : SessionState)
    (hu : s.username = some u) :
    (mstate (handlePacket ext PLAYER_POSITION_AND_LOOK s)).players.length
        = s.players.length ∧
      ∀ (i : Nat) (p : Player), s.players[i]? = some p → p.username ≠ u →
        (mstate (handlePacket ext PLAYER_POSITION_AND_LOOK s)).players[i]? = some p := by
  have hred : handlePacket ext PLAYER_POSITION_AND_LOOK s =
      (match scanPlayers s.username s.players with
        | none => panicM s
        | some none => (pure PUnit.unit : M PUnit) s
        | some (some i) => updatePositionAndLook i s) := by
    unfold handlePacket
    rw [if_neg (by decide), if_neg (by decide), if_pos rfl]
    simp only [bind_def]
    rw [mBind_ok _ (getS_spec s)]
    cases scanPlayers s.username s.players with
    | none => rfl
    | some o => cases o with
      | none => rfl
      | some i => rfl
  rw [hred, hu]
  cases hps : s.players with
  | nil =>
    simp only [scanPlayers]
    exact ⟨by simp [mstate, pure_def, mPure, hps],
      fun i p hp _ => by simp only [mstate, pure_def, mPure, hps]; exact hp⟩
  | cons p0 ps =>
    cases hfi : findIdx1 (fun q => q.username == u) (p0 :: ps) with
    | none =>
      simp only [scanPlayers, hfi]
      exact ⟨by simp [mstate, pure_def, mPure, hps],
        fun i p hp _ => by simp only [mstate, pure_def, mPure, hps]; exact hp⟩
    | some i0 =>
      simp only [scanPlayers, hfi]
      have hP := preservesOff_updatePositionAndLook i0 s
      obtain ⟨r, hr, hqr⟩ := findIdx1_some hfi
      refine ⟨hP.1.trans (by rw [hps]), fun i p hp hpne => ?_⟩
      have hine : i ≠ i0 := by
        intro he
        subst he
        rw [hp] at hr
        injection hr with hr
        subst hr
        exact hpne (by simpa [beq_iff_eq] using hqr)
      refine (hP.2 i hine).trans ?_
      rw [hps]
      exact hp

/-- C8, witness: session "Steve" with registry ["Steve", "Alex"]; the
"Alex" record (index 1) is untouched. -/
theorem c8_witness :
    ({ username := some ("Steve"), players := [freshPlayer ("Steve"), freshPlayer ("Alex")], counter := 1, input := [], output := [], trace := [] } : SessionState).username = some ("Steve") ∧
      ((mstate (handlePacket extTest PLAYER_POSITION_AND_LOOK { username := some ("Steve"), players := [freshPlayer ("Steve"), freshPlayer ("Alex")], counter := 1, input := [], output := [], trace := [] })).players.length
          = ({ username := some ("Steve"), players := [freshPlayer ("Steve"), freshPlayer ("Alex")], counter := 1, input := [], output := [], trace := [] } : SessionState).players.length ∧
        ∀ (i : Nat) (p : Player),
          ({ username := some ("Steve"), players := [freshPlayer ("Steve"), freshPlayer ("Alex")], counter := 1, input := [], output := [], trace := [] } : SessionState).players[i]? = some p →
          p.username ≠ ("Steve" : String) →
          (mstate (handlePacket extTest PLAYER_POSITION_AND_LOOK { username := some ("Steve"), players := [freshPlayer ("Steve"), freshPlayer ("Alex")], counter := 1, input := [], output := [], trace := [] })).players[i]? = some p) :=
  ⟨rfl, c8_frame_other_players_unchanged extTest ("Steve") _ rfl⟩

/-- C3: a LOGIN carrying protocol version 3 allocates an entity id from the
shared counter, binds the username, appends the fresh `Player` (position
bits of (0, 80, 0), stance bits of 81.6, zero orientation, on_ground), and
writes in order: the response header `0x01 | i32 entityId | "" | "" |
u64 seed | u8 dimension`, the chunk packets, the spawn-position packet
(each coordinate truncated `as i32` from its double), and the
position-and-look packet (`x, stance, y, z` as f64, `yaw, pitch` as f32,
`on_ground` as u8 = 1); the appended Player ends with `logged_in = true`. -/
theorem c3_login_success_effects (ext : Ext) (s : SessionState) (ub pb : List Nat)
    (seed dim : Nat) (rest : List Nat)
    (hub : ∀ b ∈ ub, b < 256) (hpb : ∀ b ∈ pb, b < 256)
    (hublen : ub.length < 2 ^ 16) (hpblen : pb.length < 2 ^ 16)
    (hseed : seed < 2 ^ 64) (hdim : dim < 256)
    (hcomp : ∀ b ∈ ext.compress (initialChunk.blocks ++ initialChunk.data
      ++ initialChunk.block_light ++ initialChunk.sky_light), b < 256)
    (hin : s.input = loginRequestBytes 3 ub pb seed dim ++ rest) :
    handlePacket ext LOGIN s = .ok ⟨⟩
      { username := some (ext.decodeLossy ub)
        players := s.players ++ [{ freshPlayer (ext.decodeLossy ub) with logged_in := true }]
        counter := (s.counter + 1) % 2 ^ 32
        input := rest
        output := s.output ++ loginResponseBytes s.counter seed dim
          ++ chunkWire ext initialChunk ++ spawnPosBytes ++ posLookBytes
        trace := s.trace ++ loginTraceEvts ub.length pb.length
          (ext.compress (initialChunk.blocks ++ initialChunk.data
            ++ initialChunk.block_light ++ initialChunk.sky_light)).length } := by
  have hd : handlePacket ext LOGIN s = loginArm ext s := by
    unfold handlePacket
    rw [if_neg (by decide), if_pos rfl]
  rw [hd]
  exact loginArm_spec ext ub pb seed dim rest hub hpb hublen hpblen hseed hdim hcomp hin

/-- C3, witness: the login of §8 of the spec — "Steve"/"x", seed 42,
dimension 0 — on a fresh process. -/
theorem c3_witness :
    (∀ b ∈ steveBytes, b < 256) ∧ (∀ b ∈ pwBytes, b < 256) ∧
      steveBytes.length < 2 ^ 16 ∧ pwBytes.length < 2 ^ 16 ∧
      (42 : Nat) < 2 ^ 64 ∧ (0 : Nat) < 256 ∧
      (∀ b ∈ extTest.compress (initialChunk.blocks ++ initialChunk.data
        ++ initialChunk.block_light ++ initialChunk.sky_light), b < 256) ∧
      c3state.input = loginRequestBytes 3 steveBytes pwBytes 42 0 ++ [] ∧
      handlePacket extTest LOGIN c3state = .ok ⟨⟩
        { username := some (extTest.decodeLossy steveBytes)
          players := c3state.players ++ [{ freshPlayer (extTest.decodeLossy steveBytes) with logged_in := true }]
          counter := (c3state.counter + 1) % 2 ^ 32
          input := ([])
          output := c3state.output ++ loginResponseBytes c3state.counter 42 0
            ++ chunkWire extTest initialChunk ++ spawnPosBytes ++ posLookBytes
          trace := c3state.trace ++ loginTraceEvts steveBytes.length pwBytes.length
            (extTest.compress (initialChunk.blocks ++ initialChunk.data
              ++ initialChunk.block_light ++ initialChunk.sky_light)).length } := by
  have hcomp : ∀ b ∈ extTest.compress (initialChunk.blocks ++ initialChunk.data
      ++ initialChunk.block_light ++ initialChunk.sky_light), b < 256 := by
    intro b hb
    simp only [extTest] at hb
    simp at hb
    omega
  refine ⟨by decide, by decide, by decide, by decide, by norm_num, by norm_num, hcomp,
    by simp [c3state, initState], ?_⟩
  exact c3_login_success_effects extTest c3state steveBytes pwBytes 42 0 []
    (by decide) (by decide) (by decide) (by decide) (by norm_num) (by norm_num)
    hcomp (by simp [c3state, initState])

/-- C5: `write_chunk c` emits exactly: `PRE_CHUNK | i32 c.x | i32 c.z |
mode 1`, then `MAP_CHUNK | i32 (16*c.x) | i16 0 | i32 (16*c.z) | 15 | 127 |
15 | i32 compressedLen | compressed`, where `compressed` is the level-6
zlib compression (the external `compress`) of blocks‖data‖block_light‖
sky_light in that order. -/
theorem c5_write_chunk_bytes (ext : Ext) (c : Chunk) (s : SessionState)
    (hb : ∀ b ∈ ext.compress (c.blocks ++ c.data ++ c.block_light ++ c.sky_light), b < 256) :
    writeChunkM ext c s = .ok ⟨⟩
      { s with
        output := s.output
          ++ ([PRE_CHUNK] ++ i32Bytes c.x ++ i32Bytes c.z ++ [1]
            ++ [MAP_CHUNK] ++ i32Bytes (c.x * 16) ++ i16Bytes 0 ++ i32Bytes (c.z * 16)
            ++ [15, 127, 15]
            ++ i32Bytes (Int.ofNat (ext.compress (c.blocks ++ c.data ++ c.block_light ++ c.sky_light)).length)
            ++ ext.compress (c.blocks ++ c.data ++ c.block_light ++ c.sky_light)),
        trace := s.trace ++ List.replicate
          (28 + (ext.compress (c.blocks ++ c.data ++ c.block_light ++ c.sky_light)).length)
          Evt.sockWrite } := by
  rw [writeChunkM_spec ext c hb]
  simp [chunkWire, List.append_assoc]

/-- C5, witness: a one-byte-per-array chunk at (2, 3) under the stand-in
compressor. -/
theorem c5_witness :
    (∀ b ∈ extTest.compress ([1] ++ [2] ++ [3] ++ [4]), b < 256) ∧
      writeChunkM extTest
        { x := 2, z := 3, blocks := [1], data := [2], sky_light := [4], block_light := [3], height_map := [] }
        (initState [] 1 []) = .ok ⟨⟩
      { initState [] 1 [] with output := ((initState [] 1 []).output ++ ([PRE_CHUNK] ++ i32Bytes 2 ++ i32Bytes 3 ++ [1] ++ [MAP_CHUNK] ++ i32Bytes (2 * 16) ++ i16Bytes 0 ++ i32Bytes (3 * 16) ++ [15, 127, 15] ++ i32Bytes (Int.ofNat (extTest.compress ([1] ++ [2] ++ [3] ++ [4])).length) ++ extTest.compress ([1] ++ [2] ++ [3] ++ [4]))), trace := ((initState [] 1 []).trace ++ List.replicate (28 + (extTest.compress ([1] ++ [2] ++ [3] ++ [4])).length) Evt.sockWrite) } :=
  ⟨by decide,
    c5_write_chunk_bytes extTest
      { x := 2, z := 3, blocks := [1], data := [2], sky_light := [4], block_light := [3], height_map := [] }
      (initState [] 1 []) (by decide)⟩

/-- C6: the claim (and §5 of the spec) requires the registry lock be taken
per individual operation and never held across a blocking socket read.
`main` instead passes `players.lock().unwrap()` into `handle_client`, so
the guard lives for the whole session: already the first packet's socket
reads happen with the lock held (and no release precedes them). -/
theorem c6_lock_held_across_reads :
    threadTrace extTest 1 (initState [] 1 [KEEP_ALIVE])
        = [Evt.lockAcquire, Evt.sockRead, Evt.sockWrite] ∧
      readsWhileLocked (threadTrace extTest 1 (initState [] 1 [KEEP_ALIVE])) false = true := by
  constructor
  · rfl
  · rfl

/-- C7, counterexample: the entity counter is an `AtomicI32` and
`fetch_add` wraps, so the ids of one process are not strictly increasing
without bound: login number `2^31` receives a smaller id than login number
`2^31 - 1` (the counter crosses the sign boundary). -/
theorem c7_counterexample_wraparound :
    (2 ^ 31 - 1 : Nat) < 2 ^ 31 ∧
      entityIdOfLogin (2 ^ 31) < entityIdOfLogin (2 ^ 31 - 1) := by
  constructor
  · norm_num
  · rw [entityIdOfLogin_eq (2 ^ 31) (by norm_num), entityIdOfLogin_eq (2 ^ 31 - 1) (by norm_num)]
    have e1 : (2 ^ 31 : Nat) % 2 ^ 32 = 2 ^ 31 := Nat.mod_eq_of_lt (by norm_num)
    have e2 : (2 ^ 31 - 1 : Nat) % 2 ^ 32 = 2 ^ 31 - 1 := Nat.mod_eq_of_lt (by norm_num)
    rw [e1, e2]
    have hA : toSignedI32 (2 ^ 31) = ((2 ^ 31 : Nat) : Int) - 2 ^ 32 := by
      unfold toSignedI32
      rw [Nat.mod_eq_of_lt (by norm_num), if_neg (by norm_num)]
    have hB : toSignedI32 (2 ^ 31 - 1) = ((2 ^ 31 - 1 : Nat) : Int) :=
      toSignedI32_of_lt (by norm_num)
    rw [hA, hB]
    push_cast


/-- C7, amended: entity ids come from the single shared counter starting at
1; each successful login's `fetch_add` returns the current value and stores
the incremented one modulo `2^32`, so ids are strictly increasing (hence
never reused) among the first `2^31 - 1` logins of a process — the
`AtomicI32` wraps after that — and the first two logins get ids 1 and 2. -/
theorem c7_amended_entity_ids :
    (∀ s : SessionState, fetchAddM s =
      .ok (toSignedI32 s.counter) { s with counter := ((s.counter + 1) % 2 ^ 32) }) ∧
    (∀ j k : Nat, 1 ≤ j → j < k → k ≤ 2 ^ 31 - 1 → entityIdOfLogin j < entityIdOfLogin k) ∧
    entityIdOfLogin 1 = 1 ∧ entityIdOfLogin 2 = 2 := by
  refine ⟨fun s => rfl, ?_, by decide, by decide⟩
  intro j k hj hjk hk
  have e31 : (2 : Nat) ^ 31 = 2147483648 := by norm_num
  have hj31 : j < 2 ^ 31 := by omega
  have hk31 : k < 2 ^ 31 := by omega
  rw [entityIdOfLogin_eq j hj, entityIdOfLogin_eq k (by omega)]
  rw [Nat.mod_eq_of_lt (by omega), Nat.mod_eq_of_lt (by omega)]
  rw [toSignedI32_of_lt hj31, toSignedI32_of_lt hk31]
  exact_mod_cast hjk

/-- C7, witness: the first two logins on a fresh process counter. -/
theorem c7_witness :
    ((1 : Nat) ≤ 1 ∧ (1 : Nat) < 2 ∧ (2 : Nat) ≤ 2 ^ 31 - 1) ∧
      entityIdOfLogin 1 < entityIdOfLogin 2 :=
  ⟨⟨le_refl 1, by norm_num, by norm_num⟩,
    c7_amended_entity_ids.2.1 1 2 (le_refl 1) (by norm_num) (by norm_num)⟩

end OxidizedAlpha
